import Mathlib

/-!
Shallow embedding of `hypothesis_test_proportions.py` (class
`PruebasProporcionesComparacion`) together with the scipy primitives it calls
(`scipy.stats.chi2_contingency`, `scipy.stats.fisher_exact`), and proofs about
the claims of the specification.

Conventions of the embedding:
* Python integers are `ℤ`; exact arithmetic uses `ℚ`.
* numpy float division is modelled by `PyFloat`: `fin q` for an exact finite
  value, `nan` for `0/0`, `inf`/`ninf` for `x/0` with `x ≠ 0`.  Where the
  square root enters (the two Agresti interval estimators) the values are
  idealized real numbers (`ℝ`, `Real.sqrt`); floating-point rounding is not
  modelled.
* `z` abstracts `scipy.stats.norm.ppf(1 - alpha/2)`, the standard normal
  quantile.  As `alpha` ranges over `(0,1)`, `z` ranges over `(0, ∞)`, so
  theorems quantify over a real parameter `z` with `0 < z`.
* A Python method raising an exception is modelled by `Except String _`, the
  string holding the exception message.
-/

namespace HypTest

/-- Result of a numpy true division, keeping track of the IEEE special values
that `0/0` (`nan`) and `x/0` (`±inf`) produce instead of raising. -/
inductive PyFloat where
  | fin : ℚ → PyFloat
  | inf : PyFloat
  | ninf : PyFloat
  | nan : PyFloat
deriving DecidableEq, Repr

theorem PyFloat.nan_beq_fin (q : ℚ) : (PyFloat.nan == PyFloat.fin q) = false := rfl

theorem PyFloat.nan_eq_fin (q : ℚ) : (PyFloat.nan = PyFloat.fin q) ↔ False := by
  constructor <;> intro h <;> cases h

theorem PyFloat.fin_beq_fin (a b : ℚ) : (PyFloat.fin a == PyFloat.fin b) = decide (a = b) := by
  by_cases h : a = b <;> simp [h, BEq.beq]

/-- numpy true division `a / b` on exact rationals: finite quotient when
`b ≠ 0`, otherwise the IEEE special value numpy produces (with a warning,
never an exception). -/
def pyDiv (a b : ℚ) : PyFloat :=
  if b ≠ 0 then .fin (a / b)
  else if a = 0 then .nan
  else if 0 < a then .inf
  else .ninf

/-- Comparison `f < q` of a float against a finite rational, as Python
evaluates it: `nan < q` and `inf < q` are `False`, `-inf < q` is `True`. -/
def PyFloat.ltQ : PyFloat → ℚ → Bool
  | .fin a, q => decide (a < q)
  | .inf, _ => false
  | .ninf, _ => true
  | .nan, _ => false

/-- numpy pairwise minimum as used by `ndarray.min()`: `nan` is absorbing,
`inf` is the identity. -/
def PyFloat.pmin : PyFloat → PyFloat → PyFloat
  | .nan, _ => .nan
  | _, .nan => .nan
  | .ninf, _ => .ninf
  | _, .ninf => .ninf
  | .inf, x => x
  | x, .inf => x
  | .fin a, .fin b => .fin (min a b)

/-- Minimum of a list of float values (`ndarray.min()` on the flattened
array), folding from the identity `inf`. -/
def pyMinList (l : List PyFloat) : PyFloat :=
  l.foldl PyFloat.pmin .inf

/-- A contingency table as the caller supplies it: a list of rows of integer
counts (`np.array` of a rectangular nested list). -/
abbrev Tabla := List (List ℤ)

/-- Number of rows, `tabla.shape[0]`. -/
def filas (t : Tabla) : ℕ := t.length

/-- Number of columns, `tabla.shape[1]` of the rectangular array. -/
def columnas (t : Tabla) : ℕ := (t.headD []).length

/-- The input nested list is rectangular, so that `np.array` yields a 2-d
array of shape `(filas, columnas)`. -/
def Rect (t : Tabla) : Prop := ∀ fila ∈ t, fila.length = columnas t

/-- All counts are non-negative. -/
def Nonneg (t : Tabla) : Prop := ∀ fila ∈ t, ∀ x ∈ fila, 0 ≤ x

/-- Entry `tabla[i, j]` for already-resolved non-negative indices. -/
def celda (t : Tabla) (i j : ℕ) : ℤ := (t.getD i []).getD j 0

/-- Row total `tabla[i].sum()`. -/
def sumaFila (t : Tabla) (i : ℕ) : ℤ := (t.getD i []).sum

/-- Column total `tabla[:, j].sum()`. -/
def sumaColumna (t : Tabla) (j : ℕ) : ℤ := (t.map (fun fila => fila.getD j 0)).sum

/-- Grand total `tabla.sum()`. -/
def total (t : Tabla) : ℤ := (t.map List.sum).sum

/-- Python / numpy index resolution against an axis of length `n`: an index
`i` with `0 ≤ i < n` is itself, an index `-n ≤ i < 0` counts from the end,
anything else raises `IndexError` (`none`). -/
def pyIndex (n : ℕ) (i : ℤ) : Option ℕ :=
  if 0 ≤ i ∧ i < (n : ℤ) then some i.toNat
  else if -(n : ℤ) ≤ i ∧ i < 0 then some (i + n).toNat
  else none

/-- Python truthiness of an optional list argument: `None` and the empty list
are falsy, so `x or default` replaces both by the default. -/
def pyOr (x : Option (List String)) (d : List String) : List String :=
  match x with
  | none => d
  | some l => if l.isEmpty then d else l

/-- Default labels `[f"{prefijo}{i+1}" for i in range(n)]`. -/
def nombresPorDefecto (prefijo : String) (n : ℕ) : List String :=
  (List.range n).map (fun i => prefijo ++ toString (i + 1))

/-- State of a `PruebasProporcionesComparacion` object: the fields assigned by
`__init__` and read (never written) by every method. -/
structure Pruebas where
  tabla : Tabla
  alpha : ℚ
  nombres_grupos : List String
  nombres_categorias : List String
deriving DecidableEq

/-- Embedding of `PruebasProporcionesComparacion.__init__` (lines 44-68).
The constructor converts the input to an array and stores it together with
`alpha` and the (possibly defaulted) label lists.  It performs no validation
whatsoever: no shape check, no sign check, no error is ever raised. -/
def init (tabla_contingencia : Tabla) (nombres_grupos nombres_categorias : Option (List String))
    (alpha : ℚ) : Pruebas :=
  { tabla := tabla_contingencia
    alpha := alpha
    nombres_grupos := pyOr nombres_grupos (nombresPorDefecto "Grupo " (filas tabla_contingencia))
    nombres_categorias :=
      pyOr nombres_categorias (nombresPorDefecto "Categoría " (columnas tabla_contingencia)) }

/-- Expected frequency `row_total[i] * col_total[j] / grand_total` as an exact
rational (meaningful when the grand total is nonzero). -/
def esperado (t : Tabla) (i j : ℕ) : ℚ :=
  ((sumaFila t i * sumaColumna t j : ℤ) : ℚ) / ((total t : ℤ) : ℚ)

/-- Matrix of expected frequencies computed by `scipy.stats.contingency.expected_freq`:
the outer product of the margin totals divided by the grand total, in float
arithmetic.  For an all-zero table every entry is `0/0 = nan`. -/
def esperadaMatriz (t : Tabla) : List (List PyFloat) :=
  (List.range (filas t)).map (fun i =>
    (List.range (columnas t)).map (fun j =>
      pyDiv ((sumaFila t i * sumaColumna t j : ℤ) : ℚ) ((total t : ℤ) : ℚ)))

/-- Guard `np.any(observed < 0)` of `chi2_contingency` (and the corresponding
guard of `fisher_exact`). -/
def tieneNegativo (t : Tabla) : Bool :=
  t.any (fun fila => fila.any (fun x => decide (x < 0)))

/-- Guard `np.any(expected == 0)` of `chi2_contingency`.  Note `nan == 0` and
`inf == 0` are false, so a `nan` expected matrix passes this check. -/
def algunEsperadoCero (t : Tabla) : Bool :=
  (esperadaMatriz t).any (fun fila => fila.any (fun e => e == PyFloat.fin 0))

/-- Degrees of freedom computed by `chi2_contingency`:
`expected.size - sum(expected.shape) + expected.ndim - 1
 = r*c - (r + c) + 2 - 1`, in exact integer arithmetic. -/
def dof (t : Tabla) : ℤ :=
  (filas t : ℤ) * (columnas t : ℤ) - (filas t : ℤ) - (columnas t : ℤ) + 1

/-- Uncorrected Pearson statistic `Σ (observed - expected)² / expected`
(`power_divergence` with `lambda_ = 1`), meaningful when the grand total is
nonzero and no expected frequency is zero. -/
def chi2SumaCruda (t : Tabla) : ℚ :=
  ((List.range (filas t)).map (fun i =>
    ((List.range (columnas t)).map (fun j =>
      ((celda t i j : ℚ) - esperado t i j) ^ 2 / esperado t i j)).sum)).sum

/-- Yates-corrected statistic: `chi2_contingency` (with its default
`correction=True`, applied exactly when `dof == 1`) moves each observed count
towards its expected value by `min(0.5, |observed - expected|)`, giving
`Σ max(|observed - expected| - 1/2, 0)² / expected`. -/
def chi2SumaYates (t : Tabla) : ℚ :=
  ((List.range (filas t)).map (fun i =>
    ((List.range (columnas t)).map (fun j =>
      max (|(celda t i j : ℚ) - esperado t i j| - 1/2) 0 ^ 2 / esperado t i j)).sum)).sum

/-- The chi-square statistic as a float: when the grand total is zero every
expected frequency is `nan`, and the sums above are `nan`; otherwise the value
is the exact rational sum. -/
def chi2Stat (t : Tabla) (correccion : Bool) : PyFloat :=
  if (total t : ℚ) = 0 then .nan
  else .fin (if correccion then chi2SumaYates t else chi2SumaCruda t)

/-- Output record of `scipy.stats.chi2_contingency` as far as the claims
inspect it.  The p-value is omitted: it is `chi2.sf(chi2, dof)`, a fixed
special function of the two fields carried here, and no claim constrains its
numeric value. -/
structure Chi2Out where
  chi2 : PyFloat
  dof : ℤ
  expected : List (List PyFloat)
deriving DecidableEq, Repr

/-- Embedding of `scipy.stats.chi2_contingency(observed)` with its default
arguments (`correction=True`, `lambda_=None` i.e. Pearson).  Branch structure
follows the scipy source: negative-entry guard, empty-size guard, expected
matrix, zero-expected guard, `dof == 0` short-circuit, Yates correction iff
`dof == 1`. -/
def chi2_contingency (t : Tabla) : Except String Chi2Out :=
  if tieneNegativo t then
    .error "All values in `observed` must be nonnegative."
  else if filas t * columnas t = 0 then
    .error "No data; `observed` has size 0."
  else if algunEsperadoCero t then
    .error "The internally computed table of expected frequencies has a zero element."
  else if dof t = 0 then
    .ok { chi2 := .fin 0, dof := 0, expected := esperadaMatriz t }
  else
    .ok { chi2 := chi2Stat t (dof t == 1), dof := dof t, expected := esperadaMatriz t }

/-- Count `np.sum(expected < 5)` of cells with low expected frequency
(`nan < 5` is false, so the all-`nan` matrix counts zero cells). -/
def celdasBajas (expected : List (List PyFloat)) : ℕ :=
  (expected.map (fun fila => (fila.filter (fun e => e.ltQ 5)).length)).sum

/-- Result record of `prueba_chi_cuadrado` (lines 201-209).  `p_value` and
`rechazo_h0` are omitted: both are determined by `chi2`, `df` and `alpha`
through the chi-square survival function, which no claim constrains. -/
structure ChiResultado where
  chi2 : PyFloat
  df : ℤ
  expected : List (List PyFloat)
  celdas_bajas : ℕ
  supuestos_ok : Bool
deriving DecidableEq, Repr

/-- Embedding of `prueba_chi_cuadrado` (lines 145-209): it calls
`chi2_contingency` (any `ValueError` propagates to the caller), then builds
the result record.  The rendering step `pd.DataFrame(expected,
index=self.nombres_grupos, columns=self.nombres_categorias)` raises a pandas
`ValueError` when a label list does not match the corresponding dimension, so
that mismatch is also an error path. -/
def prueba_chi_cuadrado (s : Pruebas) : Except String ChiResultado :=
  match chi2_contingency s.tabla with
  | .error e => .error e
  | .ok o =>
    if s.nombres_grupos.length = filas s.tabla ∧
        s.nombres_categorias.length = columnas s.tabla then
      .ok { chi2 := o.chi2
            df := o.dof
            expected := o.expected
            celdas_bajas := celdasBajas o.expected
            supuestos_ok :=
              decide ((celdasBajas o.expected : ℚ) /
                ((filas s.tabla * columnas s.tabla : ℕ) : ℚ) * 100 ≤ 20) }
    else .error "Shape of passed values does not match the index length."

instance (t : Tabla) : Decidable (Nonneg t) := by unfold Nonneg; infer_instance

instance (t : Tabla) : Decidable (Rect t) := by unfold Rect; infer_instance

theorem tieneNegativo_eq_false {t : Tabla} (h : Nonneg t) : tieneNegativo t = false := by
  simp only [tieneNegativo, List.any_eq_false]
  intro fila hf hx
  simp only [List.any_eq_true, decide_eq_true_eq] at hx
  obtain ⟨x, hxm, hneg⟩ := hx
  exact absurd (h fila hf x hxm) (not_le.mpr hneg)

theorem dof_eq (t : Tabla) : dof t = ((filas t : ℤ) - 1) * ((columnas t : ℤ) - 1) := by
  unfold dof; ring

theorem algunEsperadoCero_eq_false {t : Tabla} (htot : ((total t : ℤ) : ℚ) ≠ 0)
    (hr : ∀ i < filas t, sumaFila t i ≠ 0)
    (hc : ∀ j < columnas t, sumaColumna t j ≠ 0) :
    algunEsperadoCero t = false := by
  simp only [algunEsperadoCero, List.any_eq_false]
  intro fila hfila hx
  simp only [esperadaMatriz, List.mem_map, List.mem_range] at hfila
  obtain ⟨i, hi, rfl⟩ := hfila
  simp only [List.any_eq_true, List.mem_map, List.mem_range] at hx
  obtain ⟨e, ⟨j, hj, rfl⟩, hbeq⟩ := hx
  rw [pyDiv, if_pos htot, PyFloat.fin_beq_fin] at hbeq
  have hdiv : ((sumaFila t i * sumaColumna t j : ℤ) : ℚ) / ((total t : ℤ) : ℚ) = 0 :=
    of_decide_eq_true hbeq
  rw [div_eq_zero_iff] at hdiv
  rcases hdiv with h | h
  · rw [Int.cast_eq_zero, mul_eq_zero] at h
    rcases h with h | h
    exacts [hr i hi h, hc j hj h]
  · exact htot h

theorem algunEsperadoCero_of_fila {t : Tabla} (htot : ((total t : ℤ) : ℚ) ≠ 0)
    (h0c : 0 < columnas t) {i : ℕ} (hi : i < filas t) (hz : sumaFila t i = 0) :
    algunEsperadoCero t = true := by
  simp only [algunEsperadoCero, List.any_eq_true, esperadaMatriz, List.mem_map, List.mem_range]
  refine ⟨_, ⟨i, hi, rfl⟩, pyDiv ((sumaFila t i * sumaColumna t 0 : ℤ) : ℚ) ((total t : ℤ) : ℚ),
    List.mem_map.mpr ⟨0, List.mem_range.mpr h0c, rfl⟩, ?_⟩
  simp [pyDiv, htot, hz, PyFloat.fin_beq_fin]

theorem algunEsperadoCero_of_columna {t : Tabla} (htot : ((total t : ℤ) : ℚ) ≠ 0)
    (h0r : 0 < filas t) {j : ℕ} (hj : j < columnas t) (hz : sumaColumna t j = 0) :
    algunEsperadoCero t = true := by
  simp only [algunEsperadoCero, List.any_eq_true, esperadaMatriz, List.mem_map, List.mem_range]
  refine ⟨_, ⟨0, h0r, rfl⟩, pyDiv ((sumaFila t 0 * sumaColumna t j : ℤ) : ℚ) ((total t : ℤ) : ℚ),
    List.mem_map.mpr ⟨j, List.mem_range.mpr hj, rfl⟩, ?_⟩
  simp [pyDiv, htot, hz, PyFloat.fin_beq_fin]

/-- When all guards pass and `dof ≠ 0`, `chi2_contingency` returns the record
with the Pearson statistic, Yates-corrected exactly when `dof = 1`. -/
theorem chi2_contingency_ok {t : Tabla} (hnn : Nonneg t)
    (h0r : 0 < filas t) (h0c : 0 < columnas t) (htot : 0 < total t)
    (hr : ∀ i < filas t, sumaFila t i ≠ 0)
    (hc : ∀ j < columnas t, sumaColumna t j ≠ 0)
    (hdof : dof t ≠ 0) :
    chi2_contingency t =
      .ok { chi2 := .fin (if dof t = 1 then chi2SumaYates t else chi2SumaCruda t)
            dof := dof t
            expected := esperadaMatriz t } := by
  have htotQ : ((total t : ℤ) : ℚ) ≠ 0 := by exact_mod_cast htot.ne'
  rw [chi2_contingency, tieneNegativo_eq_false hnn, algunEsperadoCero_eq_false htotQ hr hc]
  simp only [Bool.false_eq_true, if_false, if_neg (Nat.mul_ne_zero h0r.ne' h0c.ne'), if_neg hdof]
  rw [chi2Stat, if_neg htotQ]
  congr 1
  by_cases h1 : dof t = 1 <;> simp [h1]

/-- Claim C2 counterexample: construction succeeds on a matrix with a negative
entry and on a 1×1 matrix, storing them unchanged, whereas the claim requires
a ShapeError failure on both. -/
theorem claim_C2_counterexample :
    (init [[-1, 2], [3, 4]] none none (1/20)).tabla = [[-1, 2], [3, 4]] ∧
    (init [[5]] none none (1/20)).tabla = [[5]] :=
  ⟨rfl, rfl⟩

/-- Claim C2 (amended): the constructor performs no validation whatsoever — for
every input matrix (including those with fewer than 2 rows or columns or with
negative entries) and every significance level, construction succeeds and
stores the matrix and level unchanged; no ShapeError is ever raised. -/
theorem claim_C2 (t : Tabla) (g c : Option (List String)) (a : ℚ) :
    (init t g c a).tabla = t ∧ (init t g c a).alpha = a :=
  ⟨rfl, rfl⟩

/-- Claim C1 counterexample: on the 2×2 table `[[1,0],[0,1]]` (all expected
frequencies `1/2`, nonzero) the code returns `chi2 = 0` because scipy applies
the Yates continuity correction when `dof = 1`, while the claimed formula
`Σ (observed − expected)²/expected` evaluates to `2`. -/
theorem claim_C1_counterexample :
    prueba_chi_cuadrado (init [[1, 0], [0, 1]] none none (1/20)) =
      .ok { chi2 := .fin 0, df := 1,
            expected := [[.fin (1/2), .fin (1/2)], [.fin (1/2), .fin (1/2)]],
            celdas_bajas := 4, supuestos_ok := false } ∧
    chi2SumaCruda [[1, 0], [0, 1]] = 2 := by
  constructor
  · norm_num [prueba_chi_cuadrado, chi2_contingency, tieneNegativo, algunEsperadoCero,
      esperadaMatriz, esperado, chi2Stat, chi2SumaYates, celda, sumaFila, sumaColumna, total,
      filas, columnas, dof, pyDiv, celdasBajas, PyFloat.ltQ, init, pyOr, nombresPorDefecto,
      List.range_succ, PyFloat.nan_beq_fin, PyFloat.nan_eq_fin, PyFloat.fin_beq_fin,
      abs_of_nonneg]
  · norm_num [chi2SumaCruda, esperado, celda, sumaFila, sumaColumna, total, filas, columnas,
      List.range_succ]

/-- Claim C1 (amended): for every valid table (non-negative counts, `r,c ≥ 2`,
all row and column totals nonzero) the chi-square test succeeds and returns
`degrees_of_freedom = (r−1)(c−1)`; the statistic equals the claimed formula
`Σ (observed−expected)²/expected` whenever `(r−1)(c−1) ≠ 1`, while for 2×2
tables (`dof = 1`) scipy's default Yates continuity correction is applied,
giving `Σ max(|observed−expected|−1/2, 0)²/expected` instead. -/
theorem claim_C1 (s : Pruebas)
    (h2r : 2 ≤ filas s.tabla) (h2c : 2 ≤ columnas s.tabla)
    (hnn : Nonneg s.tabla) (htot : 0 < total s.tabla)
    (hr : ∀ i < filas s.tabla, sumaFila s.tabla i ≠ 0)
    (hc : ∀ j < columnas s.tabla, sumaColumna s.tabla j ≠ 0)
    (hlg : s.nombres_grupos.length = filas s.tabla)
    (hlc : s.nombres_categorias.length = columnas s.tabla) :
    ∃ r, prueba_chi_cuadrado s = .ok r ∧
      r.df = ((filas s.tabla : ℤ) - 1) * ((columnas s.tabla : ℤ) - 1) ∧
      (dof s.tabla ≠ 1 → r.chi2 = .fin (chi2SumaCruda s.tabla)) ∧
      (dof s.tabla = 1 → r.chi2 = .fin (chi2SumaYates s.tabla)) := by
  have hdof : dof s.tabla ≠ 0 := by
    rw [dof_eq]
    have : (1 : ℤ) ≤ ((filas s.tabla : ℤ) - 1) * ((columnas s.tabla : ℤ) - 1) := by
      have hr1 : (1 : ℤ) ≤ (filas s.tabla : ℤ) - 1 := by
        have : (2 : ℤ) ≤ (filas s.tabla : ℤ) := by exact_mod_cast h2r
        omega
      have hc1 : (1 : ℤ) ≤ (columnas s.tabla : ℤ) - 1 := by
        have : (2 : ℤ) ≤ (columnas s.tabla : ℤ) := by exact_mod_cast h2c
        omega
      exact one_le_mul_of_one_le_of_one_le hr1 hc1
    omega
  have hmain := chi2_contingency_ok hnn (by omega) (by omega) htot hr hc hdof
  have hres : prueba_chi_cuadrado s = .ok
      { chi2 := .fin (if dof s.tabla = 1 then chi2SumaYates s.tabla else chi2SumaCruda s.tabla)
        df := dof s.tabla
        expected := esperadaMatriz s.tabla
        celdas_bajas := celdasBajas (esperadaMatriz s.tabla)
        supuestos_ok := decide ((celdasBajas (esperadaMatriz s.tabla) : ℚ) /
          ((filas s.tabla * columnas s.tabla : ℕ) : ℚ) * 100 ≤ 20) } := by
    rw [prueba_chi_cuadrado, hmain]
    exact if_pos ⟨hlg, hlc⟩
  refine ⟨_, hres, dof_eq s.tabla, fun h1 => by simp [if_neg h1], fun h1 => by simp [if_pos h1]⟩

/-- Claim C1 witness: the amended theorem applied to the 2×2 table
`[[10,5],[3,12]]` with default labels and `α = 0.05`. -/
theorem claim_C1_witness :
    ∃ r, prueba_chi_cuadrado (init [[10, 5], [3, 12]] none none (1/20)) = .ok r ∧
      r.df = ((filas [[(10:ℤ), 5], [3, 12]] : ℤ) - 1) * ((columnas [[(10:ℤ), 5], [3, 12]] : ℤ) - 1) ∧
      (dof [[(10:ℤ), 5], [3, 12]] ≠ 1 → r.chi2 = .fin (chi2SumaCruda [[10, 5], [3, 12]])) ∧
      (dof [[(10:ℤ), 5], [3, 12]] = 1 → r.chi2 = .fin (chi2SumaYates [[10, 5], [3, 12]])) := by
  exact claim_C1 (init [[10, 5], [3, 12]] none none (1/20))
    (by decide) (by decide) (by decide) (by decide)
    (by decide) (by decide) (by decide) (by decide)

/-- Claim C5 counterexample: on the all-zero 2×2 table every row and column
total is 0, yet the chi-square test does not fail: scipy's expected
frequencies are all `0/0 = nan`, which passes the `expected == 0` check, and a
result whose statistic is `nan` is returned silently. -/
theorem claim_C5_counterexample :
    prueba_chi_cuadrado (init [[0, 0], [0, 0]] none none (1/20)) =
      .ok { chi2 := .nan, df := 1, expected := [[.nan, .nan], [.nan, .nan]],
            celdas_bajas := 0, supuestos_ok := true } := by
  norm_num [prueba_chi_cuadrado, chi2_contingency, tieneNegativo, algunEsperadoCero,
    esperadaMatriz, esperado, chi2Stat, celda, sumaFila, sumaColumna, total, filas, columnas,
    dof, pyDiv, celdasBajas, PyFloat.ltQ, init, pyOr, nombresPorDefecto, List.range_succ,
    PyFloat.nan_beq_fin, PyFloat.nan_eq_fin]

/-- Claim C5 (amended): whenever some expected frequency is exactly 0 — which
happens exactly when some row or column total is 0 while the grand total is
positive — the chi-square test fails with the zero-expected `ValueError`
raised by scipy (the error the spec names DegenerateTableError) instead of
returning a result; for the all-zero table (grand total 0) the expected
frequencies are `nan`, not 0, and a `nan`-valued result is returned silently. -/
theorem claim_C5 (s : Pruebas)
    (hnn : Nonneg s.tabla) (h0r : 0 < filas s.tabla) (h0c : 0 < columnas s.tabla)
    (htot : 0 < total s.tabla)
    (hzero : (∃ i < filas s.tabla, sumaFila s.tabla i = 0) ∨
             (∃ j < columnas s.tabla, sumaColumna s.tabla j = 0)) :
    prueba_chi_cuadrado s =
      .error "The internally computed table of expected frequencies has a zero element." := by
  have htotQ : ((total s.tabla : ℤ) : ℚ) ≠ 0 := by exact_mod_cast htot.ne'
  have hcero : algunEsperadoCero s.tabla = true := by
    rcases hzero with ⟨i, hi, hz⟩ | ⟨j, hj, hz⟩
    · exact algunEsperadoCero_of_fila htotQ h0c hi hz
    · exact algunEsperadoCero_of_columna htotQ h0r hj hz
  rw [prueba_chi_cuadrado, chi2_contingency, tieneNegativo_eq_false hnn]
  simp [hcero, Nat.mul_ne_zero h0r.ne' h0c.ne']

/-- Claim C5 witness: the amended theorem applied to `[[1,2],[0,0]]`, whose
second row total is 0 while the grand total is 3. -/
theorem claim_C5_witness :
    prueba_chi_cuadrado (init [[1, 2], [0, 0]] none none (1/20)) =
      .error "The internally computed table of expected frequencies has a zero element." :=
  claim_C5 (init [[1, 2], [0, 0]] none none (1/20)) (by decide) (by decide) (by decide)
    (by decide) (Or.inl ⟨1, by decide, by decide⟩)

/-- Float subtraction, needed for `diff_obs = p1_obs - p2_obs` where the
observed proportions may already be special values. -/
def PyFloat.sub : PyFloat → PyFloat → PyFloat
  | .fin a, .fin b => .fin (a - b)
  | .nan, _ => .nan
  | _, .nan => .nan
  | .inf, .inf => .nan
  | .inf, _ => .inf
  | .ninf, .ninf => .nan
  | .ninf, _ => .ninf
  | .fin _, .inf => .ninf
  | .fin _, .ninf => .inf

/-- The `alternative` argument of `fisher_exact` (`'two-sided'`, `'less'`,
`'greater'`). -/
inductive Alternativa where
  | twoSided
  | less
  | greater
deriving DecidableEq, Repr

/-- Hypergeometric probability mass `C(n1,k)·C(n2,ncol−k) / C(n1+n2,ncol)`:
the null distribution of the `(0,0)` cell of a 2×2 table conditioned on the
margins (`scipy.stats.hypergeom.pmf(k, n1+n2, n1, ncol)`). -/
def hpmf (n1 n2 ncol k : ℕ) : ℚ :=
  ((n1.choose k * n2.choose (ncol - k) : ℕ) : ℚ) / (((n1 + n2).choose ncol : ℕ) : ℚ)

/-- P-value of `scipy.stats.fisher_exact` on the table `[[a,b],[c,d]]`:
`less` is the lower hypergeometric tail at `a`, `greater` the upper tail, and
`two-sided` sums the probabilities of all outcomes whose probability does not
exceed that of the observed table (scipy implements this threshold with a
relative floating-point tolerance `1 + ~1e-14`, an artifact of float
arithmetic that exact rational arithmetic does not need). -/
def fisherPValor (a b c d : ℕ) (alternativa : Alternativa) : ℚ :=
  let n1 := a + b
  let n2 := c + d
  let ncol := a + c
  match alternativa with
  | .less => ((List.range (a + 1)).map (hpmf n1 n2 ncol)).sum
  | .greater =>
      (((List.range (ncol + 1)).filter (fun k => a ≤ k)).map (hpmf n1 n2 ncol)).sum
  | .twoSided =>
      (((List.range (ncol + 1)).filter
        (fun k => hpmf n1 n2 ncol k ≤ hpmf n1 n2 ncol a)).map (hpmf n1 n2 ncol)).sum

/-- Result of `prueba_fisher_exacta`: the dict with `aplicable: False` and a
message for non-2×2 tables, or the dict of statistics (lines 136-143). -/
inductive FisherResultado where
  | noAplicable (mensaje : String)
  | aplicable (odds_ratio : PyFloat) (p_value : ℚ) (p1 p2 : PyFloat) (rechazo_h0 : Bool)
deriving DecidableEq

/-- Embedding of `prueba_fisher_exacta` (lines 86-143).  For a non-2×2 table
it returns the non-applicable dict before touching scipy; otherwise it calls
`scipy.stats.fisher_exact` (which raises on negative entries, and returns the
sample odds ratio `a*d/(c*b)`, or `inf` when an off-diagonal entry is 0),
computes the observed proportions, prints, and returns the result dict.  The
print statements read `nombres_grupos[0]` and `nombres_grupos[1]`, raising
`IndexError` when fewer than two group labels are stored. -/
def prueba_fisher_exacta (s : Pruebas) (alternativa : Alternativa) :
    Except String FisherResultado :=
  if ¬(filas s.tabla = 2 ∧ columnas s.tabla = 2) then
    .ok (.noAplicable "La prueba exacta de Fisher solo es aplicable a tablas 2x2")
  else if tieneNegativo s.tabla then
    .error "All values in `table` must be nonnegative."
  else if s.nombres_grupos.length < 2 then
    .error "IndexError: list index out of range"
  else
    let a := (celda s.tabla 0 0).toNat
    let b := (celda s.tabla 0 1).toNat
    let c := (celda s.tabla 1 0).toNat
    let d := (celda s.tabla 1 1).toNat
    let p := fisherPValor a b c d alternativa
    .ok (.aplicable
      (if 0 < c ∧ 0 < b then pyDiv ((a * d : ℕ) : ℚ) (((c * b : ℕ)) : ℚ) else .inf)
      p
      (pyDiv ((celda s.tabla 0 0 : ℤ) : ℚ) ((sumaFila s.tabla 0 : ℤ) : ℚ))
      (pyDiv ((celda s.tabla 1 0 : ℤ) : ℚ) ((sumaFila s.tabla 1 : ℤ) : ℚ))
      (decide (p < s.alpha)))

/-- Result dict of `intervalo_agresti_caffo_diferencia` (lines 358-368). -/
structure ACaffoResultado where
  p1_obs : PyFloat
  p2_obs : PyFloat
  diff_obs : PyFloat
  p1_ajustada : ℚ
  p2_ajustada : ℚ
  diff_ajustada : ℚ
  ic_lower : ℝ
  ic_upper : ℝ
  incluye_cero : Prop

/-- Embedding of `intervalo_agresti_caffo_diferencia` (lines 281-368).  For a
non-2×2 table it prints a message and returns `None` (`.ok none`) — not an
error.  Otherwise it adds one success and one failure per group, computes the
adjusted difference and its standard error, and returns the unclamped interval
`[diff − z·se, diff + z·se]`.  The rational divisions `(x+1)/(n+2)` are exact
(`n+2 ≥ 2 > 0` for a non-negative table, so no special float values arise);
the print statements read `nombres_grupos[0]` and `[1]`, raising `IndexError`
when fewer than two group labels exist. -/
noncomputable def intervalo_agresti_caffo_diferencia (s : Pruebas) (z : ℝ) :
    Except String (Option ACaffoResultado) :=
  if ¬(filas s.tabla = 2 ∧ columnas s.tabla = 2) then .ok none
  else if s.nombres_grupos.length < 2 then .error "IndexError: list index out of range"
  else
    let x1 := celda s.tabla 0 0
    let n1 := sumaFila s.tabla 0
    let x2 := celda s.tabla 1 0
    let n2 := sumaFila s.tabla 1
    let p1t : ℚ := ((x1 : ℚ) + 1) / ((n1 : ℚ) + 2)
    let p2t : ℚ := ((x2 : ℚ) + 1) / ((n2 : ℚ) + 2)
    let diff : ℚ := p1t - p2t
    let se : ℝ := Real.sqrt ((p1t : ℝ) * (1 - (p1t : ℝ)) / ((n1 : ℝ) + 2) +
      (p2t : ℝ) * (1 - (p2t : ℝ)) / ((n2 : ℝ) + 2))
    .ok (some
      { p1_obs := pyDiv (x1 : ℚ) (n1 : ℚ)
        p2_obs := pyDiv (x2 : ℚ) (n2 : ℚ)
        diff_obs := PyFloat.sub (pyDiv (x1 : ℚ) (n1 : ℚ)) (pyDiv (x2 : ℚ) (n2 : ℚ))
        p1_ajustada := p1t
        p2_ajustada := p2t
        diff_ajustada := diff
        ic_lower := (diff : ℝ) - z * se
        ic_upper := (diff : ℝ) + z * se
        incluye_cero := (diff : ℝ) - z * se ≤ 0 ∧ 0 ≤ (diff : ℝ) + z * se })

/-- Lower Agresti-Caffo bound of a result, with `0` standing in for the
error/absent cases (used only to state closed facts about a known-successful
call). -/
def caffoLowerDe (o : Except String (Option ACaffoResultado)) : ℝ :=
  match o with
  | .ok (some r) => r.ic_lower
  | _ => 0

/-- Claim C4: on every table that is not exactly 2×2, the Fisher exact test
returns its tagged non-applicable dict and the Agresti-Caffo interval returns
`None`, and neither raises an exception — both gates fire before any other
computation. -/
theorem claim_C4 (s : Pruebas) (alternativa : Alternativa) (z : ℝ)
    (h : ¬(filas s.tabla = 2 ∧ columnas s.tabla = 2)) :
    prueba_fisher_exacta s alternativa =
      .ok (.noAplicable "La prueba exacta de Fisher solo es aplicable a tablas 2x2") ∧
    intervalo_agresti_caffo_diferencia s z = .ok none := by
  constructor
  · rw [prueba_fisher_exacta, if_pos h]
  · rw [intervalo_agresti_caffo_diferencia, if_pos h]

/-- Claim C4 witness: the theorem applied to the 2×3 table `[[10,5,3],[3,12,8]]`
with the two-sided alternative and `z = 2`. -/
theorem claim_C4_witness :
    prueba_fisher_exacta (init [[10, 5, 3], [3, 12, 8]] none none (1/20)) .twoSided =
      .ok (.noAplicable "La prueba exacta de Fisher solo es aplicable a tablas 2x2") ∧
    intervalo_agresti_caffo_diferencia (init [[10, 5, 3], [3, 12, 8]] none none (1/20)) 2 =
      .ok none :=
  claim_C4 (init [[10, 5, 3], [3, 12, 8]] none none (1/20)) .twoSided 2 (by decide)

/-- Claim C3 counterexample: on the 2×2 table `[[0,1],[1,0]]` with `z = 2`
(α ≈ 0.0455 ∈ (0,1)) the unclamped Agresti-Caffo lower bound is
`−1/3 − 2·√(4/27) ≈ −1.103 < −1`, so the interval does not stay within
`[−1, 1]`. -/
theorem claim_C3_counterexample :
    caffoLowerDe (intervalo_agresti_caffo_diferencia (init [[0, 1], [1, 0]] none none (1/20)) 2) <
      -1 := by
  have hpos : (0:ℝ) < Real.sqrt 27 := Real.sqrt_pos.mpr (by norm_num)
  have h27 : Real.sqrt 27 < 6 := (Real.sqrt_lt' (by norm_num)).mpr (by norm_num)
  have h4 : Real.sqrt 4 = 2 := by
    rw [show (4:ℝ) = 2^2 by norm_num, Real.sqrt_sq (by norm_num)]
  norm_num [caffoLowerDe, intervalo_agresti_caffo_diferencia, init, filas, columnas, celda,
    sumaFila, pyOr, nombresPorDefecto, pyDiv, h4]
  have hkey : (4:ℝ)/6 < 4/Real.sqrt 27 :=
    div_lt_div_of_pos_left (by norm_num) hpos h27
  have hexp : (4:ℝ)/Real.sqrt 27 = 2 * (2/Real.sqrt 27) := by ring
  linarith [hkey, hexp]

/-- Claim C3 (amended): for every 2×2 table of non-negative counts and every
`z > 0` the Agresti-Caffo interval satisfies
`ic_lower ≤ diff_tilde ≤ ic_upper`, but the bounds are not clamped and need
not lie within `[−1, 1]`: at extreme counts the interval can extend past the
probability-difference range (see the counterexample). -/
theorem claim_C3 (s : Pruebas) (z : ℝ)
    (h2 : filas s.tabla = 2 ∧ columnas s.tabla = 2)
    ( _hnn : Nonneg s.tabla) (hz : 0 < z)
    (hl : 2 ≤ s.nombres_grupos.length) :
    ∃ r, intervalo_agresti_caffo_diferencia s z = .ok (some r) ∧
      r.ic_lower ≤ (r.diff_ajustada : ℝ) ∧ (r.diff_ajustada : ℝ) ≤ r.ic_upper := by
  rw [intervalo_agresti_caffo_diferencia, if_neg (not_not_intro h2), if_neg (by omega)]
  refine ⟨_, rfl, ?_, ?_⟩ <;>
  · simp only
    have hse := Real.sqrt_nonneg
      (((((celda s.tabla 0 0 : ℚ) + 1) / ((sumaFila s.tabla 0 : ℚ) + 2) : ℚ) : ℝ) *
        (1 - ((((celda s.tabla 0 0 : ℚ) + 1) / ((sumaFila s.tabla 0 : ℚ) + 2) : ℚ) : ℝ)) /
        ((sumaFila s.tabla 0 : ℝ) + 2) +
      ((((celda s.tabla 1 0 : ℚ) + 1) / ((sumaFila s.tabla 1 : ℚ) + 2) : ℚ) : ℝ) *
        (1 - ((((celda s.tabla 1 0 : ℚ) + 1) / ((sumaFila s.tabla 1 : ℚ) + 2) : ℚ) : ℝ)) /
        ((sumaFila s.tabla 1 : ℝ) + 2))
    nlinarith [mul_nonneg hz.le hse]

/-- Claim C3 witness: the amended theorem applied to `[[10,5],[3,12]]` with
default labels and `z = 2`. -/
theorem claim_C3_witness :
    ∃ r, intervalo_agresti_caffo_diferencia (init [[10, 5], [3, 12]] none none (1/20)) 2 =
        .ok (some r) ∧
      r.ic_lower ≤ (r.diff_ajustada : ℝ) ∧ (r.diff_ajustada : ℝ) ≤ r.ic_upper :=
  claim_C3 (init [[10, 5], [3, 12]] none none (1/20)) 2 (by decide) (by decide) (by norm_num)
    (by decide)

theorem fila_nonneg {t : Tabla} (hnn : Nonneg t) (i : ℕ) : ∀ y ∈ t.getD i [], 0 ≤ y := by
  by_cases hi : i < t.length
  · rw [List.getD_eq_getElem t [] hi]
    exact hnn _ (List.getElem_mem hi)
  · rw [List.getD_eq_default t [] (le_of_not_lt hi)]
    intro y hy
    cases hy

theorem sumaFila_nonneg {t : Tabla} (hnn : Nonneg t) (i : ℕ) : 0 ≤ sumaFila t i :=
  List.sum_nonneg (fila_nonneg hnn i)

theorem celda_nonneg {t : Tabla} (hnn : Nonneg t) (i j : ℕ) : 0 ≤ celda t i j := by
  unfold celda
  by_cases hj : j < (t.getD i []).length
  · rw [List.getD_eq_getElem _ 0 hj]
    exact fila_nonneg hnn i _ (List.getElem_mem hj)
  · rw [List.getD_eq_default _ 0 (le_of_not_lt hj)]

theorem celda_le_sumaFila {t : Tabla} (hnn : Nonneg t) (i j : ℕ) :
    celda t i j ≤ sumaFila t i := by
  unfold celda sumaFila
  by_cases hj : j < (t.getD i []).length
  · rw [List.getD_eq_getElem _ 0 hj]
    exact List.single_le_sum (fila_nonneg hnn i) _ (List.getElem_mem hj)
  · rw [List.getD_eq_default _ 0 (le_of_not_lt hj)]
    exact List.sum_nonneg (fila_nonneg hnn i)

theorem pyIndex_natCast {n i : ℕ} (h : i < n) : pyIndex n (i : ℤ) = some i := by
  unfold pyIndex
  rw [if_pos ⟨Int.natCast_nonneg i, by exact_mod_cast h⟩, Int.toNat_natCast]

theorem pyIndex_isSome_iff (n : ℕ) (i : ℤ) :
    (pyIndex n i).isSome = true ↔ (-(n : ℤ) ≤ i ∧ i < (n : ℤ)) := by
  unfold pyIndex
  split_ifs with h1 h2 <;> simp <;> omega

theorem pyIndex_shift {n : ℕ} {i : ℤ} (hlo : -(n : ℤ) ≤ i) ( _hhi : i < (n : ℤ)) :
    pyIndex n (if i < 0 then i + (n : ℤ) else i) = pyIndex n i := by
  by_cases hneg : i < 0
  · rw [if_pos hneg]
    unfold pyIndex
    rw [if_pos (by omega : (0:ℤ) ≤ i + (n:ℤ) ∧ i + (n:ℤ) < (n:ℤ)),
      if_neg (by omega : ¬((0:ℤ) ≤ i ∧ i < (n:ℤ))), if_pos ⟨hlo, hneg⟩]
  · rw [if_neg hneg]

/-- Result dict of `intervalo_agresti_coull` (lines 272-279). -/
structure ACoullResultado where
  p_observada : PyFloat
  p_ajustada : ℝ
  ic_lower : ℝ
  ic_upper : ℝ
  n : ℤ
  x : ℤ

/-- Core computation of `intervalo_agresti_coull` (lines 234-253) on the
extracted success count `x` and sample size `n`: the Agresti-Coull adjustment
`n_tilde = n + z²`, `p_tilde = (x + z²/2)/n_tilde`, the adjusted standard
error, and the interval bounds clamped into `[0,1]` by `max(0,·)`/`min(1,·)`.
The observed proportion `x/n` is float division (`nan` on an empty group). -/
noncomputable def agrestiCoullNucleo (x n : ℤ) (z : ℝ) : ACoullResultado :=
  let n_tilde : ℝ := (n : ℝ) + z ^ 2
  let p_tilde : ℝ := ((x : ℝ) + z ^ 2 / 2) / n_tilde
  let se : ℝ := Real.sqrt (p_tilde * (1 - p_tilde) / n_tilde)
  { p_observada := pyDiv (x : ℚ) (n : ℚ)
    p_ajustada := p_tilde
    ic_lower := max 0 (p_tilde - z * se)
    ic_upper := min 1 (p_tilde + z * se)
    n := n
    x := x }

/-- Embedding of `intervalo_agresti_coull` (lines 211-279).  `x` and `n` are
read with numpy indexing `tabla[grupo, categoria_exito]` and `tabla[grupo]`,
which resolve negative indices from the end and raise `IndexError` out of
`[-len, len)`; the print statements then index `nombres_grupos[grupo]` and
`nombres_categorias[categoria_exito]` under the same Python indexing rules. -/
noncomputable def intervalo_agresti_coull (s : Pruebas) (grupo categoria_exito : ℤ)
    (z : ℝ) : Except String ACoullResultado :=
  match pyIndex (filas s.tabla) grupo, pyIndex (columnas s.tabla) categoria_exito,
      pyIndex s.nombres_grupos.length grupo,
      pyIndex s.nombres_categorias.length categoria_exito with
  | some i, some j, some _, some _ =>
      .ok (agrestiCoullNucleo (celda s.tabla i j) (sumaFila s.tabla i) z)
  | _, _, _, _ => .error "IndexError: index out of bounds"

/-- Claim C6: for every table of non-negative counts, in-bounds group and
success-category indices and `z > 0` (the normal quantile for α ∈ (0,1)), the
Agresti-Coull interval is computed by the adjusted formulas
`p_tilde = (x + z²/2)/(n + z²)`, `se = √(p_tilde(1−p_tilde)/(n+z²))`, bounds
`p_tilde ∓ z·se` clamped into `[0,1]`; consequently
`0 ≤ ic_lower ≤ ic_upper ≤ 1`. -/
theorem claim_C6 (s : Pruebas) (i j : ℕ) (z : ℝ)
    (hi : i < filas s.tabla) (hj : j < columnas s.tabla)
    (hnn : Nonneg s.tabla) (hz : 0 < z)
    (hlg : s.nombres_grupos.length = filas s.tabla)
    (hlc : s.nombres_categorias.length = columnas s.tabla) :
    ∃ r, intervalo_agresti_coull s (i : ℤ) (j : ℤ) z = .ok r ∧
      r.p_ajustada = ((celda s.tabla i j : ℝ) + z ^ 2 / 2) / ((sumaFila s.tabla i : ℝ) + z ^ 2) ∧
      r.ic_lower = max 0 (r.p_ajustada - z * Real.sqrt
        (r.p_ajustada * (1 - r.p_ajustada) / ((sumaFila s.tabla i : ℝ) + z ^ 2))) ∧
      r.ic_upper = min 1 (r.p_ajustada + z * Real.sqrt
        (r.p_ajustada * (1 - r.p_ajustada) / ((sumaFila s.tabla i : ℝ) + z ^ 2))) ∧
      0 ≤ r.ic_lower ∧ r.ic_lower ≤ r.ic_upper ∧ r.ic_upper ≤ 1 := by
  have hres : intervalo_agresti_coull s (i : ℤ) (j : ℤ) z =
      .ok (agrestiCoullNucleo (celda s.tabla i j) (sumaFila s.tabla i) z) := by
    rw [intervalo_agresti_coull, pyIndex_natCast hi, pyIndex_natCast hj, hlg, hlc,
      pyIndex_natCast hi, pyIndex_natCast hj]
  set x : ℤ := celda s.tabla i j with hxdef
  set n : ℤ := sumaFila s.tabla i with hndef
  have hx0 : (0 : ℝ) ≤ (x : ℝ) := by exact_mod_cast celda_nonneg hnn i j
  have hn0 : (0 : ℝ) ≤ (n : ℝ) := by exact_mod_cast sumaFila_nonneg hnn i
  have hxn : (x : ℝ) ≤ (n : ℝ) := by exact_mod_cast celda_le_sumaFila hnn i j
  have hz2 : (0 : ℝ) < z ^ 2 := pow_pos hz 2
  have hnt : (0 : ℝ) < (n : ℝ) + z ^ 2 := by linarith
  have hp0 : (0 : ℝ) ≤ ((x : ℝ) + z ^ 2 / 2) / ((n : ℝ) + z ^ 2) :=
    div_nonneg (by linarith) hnt.le
  have hp1 : ((x : ℝ) + z ^ 2 / 2) / ((n : ℝ) + z ^ 2) ≤ 1 :=
    (div_le_one hnt).mpr (by linarith)
  have hse : (0 : ℝ) ≤ z * Real.sqrt
      ((((x : ℝ) + z ^ 2 / 2) / ((n : ℝ) + z ^ 2)) *
        (1 - ((x : ℝ) + z ^ 2 / 2) / ((n : ℝ) + z ^ 2)) / ((n : ℝ) + z ^ 2)) :=
    mul_nonneg hz.le (Real.sqrt_nonneg _)
  refine ⟨_, hres, rfl, rfl, rfl, ?_, ?_, ?_⟩
  · exact le_max_left 0 _
  · refine max_le (le_min zero_le_one (by linarith))
      (le_min (by linarith) (by linarith))
  · exact min_le_left 1 _

/-- Claim C6 witness: the theorem applied to `[[7,2],[4,9]]`, group 0,
success category 0, `z = 2`. -/
theorem claim_C6_witness :
    ∃ r, intervalo_agresti_coull (init [[7, 2], [4, 9]] none none (1/20)) 0 0 2 = .ok r ∧
      r.p_ajustada = ((celda [[(7:ℤ), 2], [4, 9]] 0 0 : ℝ) + 2 ^ 2 / 2) /
        ((sumaFila [[(7:ℤ), 2], [4, 9]] 0 : ℝ) + 2 ^ 2) ∧
      r.ic_lower = max 0 (r.p_ajustada - 2 * Real.sqrt
        (r.p_ajustada * (1 - r.p_ajustada) / ((sumaFila [[(7:ℤ), 2], [4, 9]] 0 : ℝ) + 2 ^ 2))) ∧
      r.ic_upper = min 1 (r.p_ajustada + 2 * Real.sqrt
        (r.p_ajustada * (1 - r.p_ajustada) / ((sumaFila [[(7:ℤ), 2], [4, 9]] 0 : ℝ) + 2 ^ 2))) ∧
      0 ≤ r.ic_lower ∧ r.ic_lower ≤ r.ic_upper ∧ r.ic_upper ≤ 1 :=
  claim_C6 (init [[7, 2], [4, 9]] none none (1/20)) 0 0 2 (by decide) (by decide) (by decide)
    (by norm_num) (by decide) (by decide)

theorem pyIndex_none {n : ℕ} {i : ℤ} (h : pyIndex n i = none) :
    ¬(-(n : ℤ) ≤ i ∧ i < (n : ℤ)) := by
  intro hc
  have hs := (pyIndex_isSome_iff n i).mpr hc
  rw [h] at hs
  simp at hs

theorem pyIndex_some {n : ℕ} {i : ℤ} {m : ℕ} (h : pyIndex n i = some m) :
    -(n : ℤ) ≤ i ∧ i < (n : ℤ) := by
  refine (pyIndex_isSome_iff n i).mp ?_
  rw [h]
  rfl

/-- Claim C9: with label lists matching the table dimensions, the
Agresti-Coull call succeeds exactly when the group index lies in `[-r, r)` and
the category index in `[-c, c)` — negative indices do not fail — and a
negative in-range index denotes the same row/column as its value shifted by
the corresponding dimension (`-1` is the last row/column). -/
theorem claim_C9 (s : Pruebas) (g k : ℤ) (z : ℝ)
    (hlg : s.nombres_grupos.length = filas s.tabla)
    (hlc : s.nombres_categorias.length = columnas s.tabla) :
    ((intervalo_agresti_coull s g k z).isOk = true ↔
      (-(filas s.tabla : ℤ) ≤ g ∧ g < (filas s.tabla : ℤ) ∧
       -(columnas s.tabla : ℤ) ≤ k ∧ k < (columnas s.tabla : ℤ))) ∧
    ((-(filas s.tabla : ℤ) ≤ g ∧ g < (filas s.tabla : ℤ) ∧
      -(columnas s.tabla : ℤ) ≤ k ∧ k < (columnas s.tabla : ℤ)) →
      intervalo_agresti_coull s g k z =
        intervalo_agresti_coull s (if g < 0 then g + (filas s.tabla : ℤ) else g)
          (if k < 0 then k + (columnas s.tabla : ℤ) else k) z) := by
  constructor
  · rw [intervalo_agresti_coull, hlg, hlc]
    rcases hpg : pyIndex (filas s.tabla) g with _ | i <;>
      rcases hpk : pyIndex (columnas s.tabla) k with _ | j
    · simp only [Except.isOk]
      constructor
      · intro h; cases h
      · rintro ⟨a1, a2, _, _⟩; exact absurd ⟨a1, a2⟩ (pyIndex_none hpg)
    · simp only [Except.isOk]
      constructor
      · intro h; cases h
      · rintro ⟨a1, a2, _, _⟩; exact absurd ⟨a1, a2⟩ (pyIndex_none hpg)
    · simp only [Except.isOk]
      constructor
      · intro h; cases h
      · rintro ⟨_, _, b1, b2⟩; exact absurd ⟨b1, b2⟩ (pyIndex_none hpk)
    · simp only [Except.isOk]
      obtain ⟨a1, a2⟩ := pyIndex_some hpg
      obtain ⟨b1, b2⟩ := pyIndex_some hpk
      exact iff_of_true rfl ⟨a1, a2, b1, b2⟩
  · rintro ⟨a1, a2, b1, b2⟩
    rw [intervalo_agresti_coull, intervalo_agresti_coull, hlg, hlc,
      pyIndex_shift a1 a2, pyIndex_shift b1 b2]

/-- Claim C9 witness: the theorem applied to the 2×2 table `[[3,4],[5,6]]`
with default labels, group index `-1` and category index `-2`. -/
theorem claim_C9_witness :
    ((intervalo_agresti_coull (init [[3, 4], [5, 6]] none none (1/20)) (-1) (-2) 1).isOk = true ↔
      (-(filas [[(3:ℤ), 4], [5, 6]] : ℤ) ≤ -1 ∧ (-1 : ℤ) < (filas [[(3:ℤ), 4], [5, 6]] : ℤ) ∧
       -(columnas [[(3:ℤ), 4], [5, 6]] : ℤ) ≤ -2 ∧ (-2 : ℤ) < (columnas [[(3:ℤ), 4], [5, 6]] : ℤ))) ∧
    ((-(filas [[(3:ℤ), 4], [5, 6]] : ℤ) ≤ -1 ∧ (-1 : ℤ) < (filas [[(3:ℤ), 4], [5, 6]] : ℤ) ∧
      -(columnas [[(3:ℤ), 4], [5, 6]] : ℤ) ≤ -2 ∧ (-2 : ℤ) < (columnas [[(3:ℤ), 4], [5, 6]] : ℤ)) →
      intervalo_agresti_coull (init [[3, 4], [5, 6]] none none (1/20)) (-1) (-2) 1 =
        intervalo_agresti_coull (init [[3, 4], [5, 6]] none none (1/20))
          (if (-1 : ℤ) < 0 then -1 + (filas [[(3:ℤ), 4], [5, 6]] : ℤ) else -1)
          (if (-2 : ℤ) < 0 then -2 + (columnas [[(3:ℤ), 4], [5, 6]] : ℤ) else -2) 1) :=
  claim_C9 (init [[3, 4], [5, 6]] none none (1/20)) (-1) (-2) 1 (by decide) (by decide)

theorem agrestiCoullNucleo_cero {z : ℝ} (hz : 0 < z) :
    agrestiCoullNucleo 0 0 z =
      { p_observada := .nan, p_ajustada := 1/2, ic_lower := 0, ic_upper := 1,
        n := 0, x := 0 } := by
  have hz2 : z ^ 2 ≠ 0 := (pow_pos hz 2).ne'
  have hp : (((0:ℤ) : ℝ) + z ^ 2 / 2) / (((0:ℤ) : ℝ) + z ^ 2) = 1/2 := by
    push_cast
    rw [zero_add, zero_add]
    field_simp
    ring
  have harg : (1/2 : ℝ) * (1 - 1/2) / (((0:ℤ) : ℝ) + z ^ 2) = (1/(2*z)) ^ 2 := by
    push_cast
    field_simp
    ring
  have hsq : Real.sqrt ((1/(2*z)) ^ 2) = 1/(2*z) :=
    Real.sqrt_sq (by positivity)
  have hzse : z * (1/(2*z)) = 1/2 := by
    field_simp
    ring
  unfold agrestiCoullNucleo
  simp only [hp, harg, hsq, hzse]
  norm_num [pyDiv]

/-- Claim C10: on a group whose row total is 0 (hence, for a non-negative
table, a row of zeros) the Agresti-Coull interval does not raise: the adjusted
quantities are well defined (`n_tilde = 0 + z² > 0`, `p_tilde = 1/2`), the
clamped bounds are `0` and `1` (so they lie in `[0,1]`), and the observed
proportion field is the indeterminate `0/0`, i.e. `nan`, rather than a number
or an error. -/
theorem claim_C10 (s : Pruebas) (i j : ℕ) (z : ℝ)
    (hi : i < filas s.tabla) (hj : j < columnas s.tabla)
    (hnn : Nonneg s.tabla) (hz : 0 < z)
    (hfila0 : sumaFila s.tabla i = 0)
    (hlg : s.nombres_grupos.length = filas s.tabla)
    (hlc : s.nombres_categorias.length = columnas s.tabla) :
    intervalo_agresti_coull s (i : ℤ) (j : ℤ) z =
      .ok { p_observada := .nan, p_ajustada := 1/2, ic_lower := 0, ic_upper := 1,
            n := 0, x := 0 } := by
  have hx : celda s.tabla i j = 0 :=
    le_antisymm (hfila0 ▸ celda_le_sumaFila hnn i j) (celda_nonneg hnn i j)
  rw [intervalo_agresti_coull, hlg, hlc, pyIndex_natCast hi, pyIndex_natCast hj]
  show Except.ok (agrestiCoullNucleo (celda s.tabla i j) (sumaFila s.tabla i) z) = _
  rw [hx, hfila0, agrestiCoullNucleo_cero hz]

/-- Claim C10 witness: the theorem applied to `[[0,0],[5,7]]` (first row all
zeros), group 0, category 1, `z = 1`. -/
theorem claim_C10_witness :
    intervalo_agresti_coull (init [[0, 0], [5, 7]] none none (1/20)) 0 1 1 =
      .ok { p_observada := .nan, p_ajustada := 1/2, ic_lower := 0, ic_upper := 1,
            n := 0, x := 0 } :=
  claim_C10 (init [[0, 0], [5, 7]] none none (1/20)) 0 1 1 (by decide) (by decide) (by decide)
    (by norm_num) (by decide) (by decide) (by decide)

/-- Which recommendation branch `comparar_metodos` prints (lines 399-404). -/
inductive Recomendacion where
  | usarFisher
  | ambosValidos
deriving DecidableEq, Repr

/-- Observable outcome of `comparar_metodos`: the Python return value
`retorno` — always `None`, the function has no `return value` statement — and
the recommendation branch whose prose was printed (`none` when the function
returned early because the table is not 2×2). -/
structure ComparacionTraza where
  retorno : Option Recomendacion
  recomendacion_impresa : Option Recomendacion
deriving DecidableEq, Repr

/-- Embedding of `comparar_metodos` (lines 370-410).  For a non-2×2 table it
prints a message and returns `None` (line 377).  Otherwise it calls
`scipy.stats.fisher_exact` (line 384, which raises on negative entries) and
`chi2_contingency` (line 388, whose `ValueError`s propagate), prints the
p-value comparison, prints the recommendation — Fisher exactly when
`total < 20 or expected.min() < 5` (line 399) — and falls off the end,
returning `None`.  The two p-values feed only the printed text, never the
control flow or the return value. -/
def comparar_metodos (s : Pruebas) : Except String ComparacionTraza :=
  if ¬(filas s.tabla = 2 ∧ columnas s.tabla = 2) then .ok ⟨none, none⟩
  else if tieneNegativo s.tabla then .error "All values in `table` must be nonnegative."
  else
    match chi2_contingency s.tabla with
    | .error e => .error e
    | .ok o =>
      let minExp := pyMinList o.expected.flatten
      .ok ⟨none, some (if (decide (total s.tabla < 20) || PyFloat.ltQ minExp 5) = true
        then .usarFisher else .ambosValidos)⟩

/-- Claim C7 counterexample: on `[[5,5],[5,5]]` (total 20, minimum expected 5)
the method advisor prints the "both methods valid" prose and returns `None` —
no structured recommendation record is produced, where the claim requires
one. -/
theorem claim_C7_counterexample :
    comparar_metodos (init [[5, 5], [5, 5]] none none (1/20)) =
      .ok { retorno := none, recomendacion_impresa := some .ambosValidos } := by
  norm_num [comparar_metodos, chi2_contingency, tieneNegativo, algunEsperadoCero,
    esperadaMatriz, esperado, chi2Stat, chi2SumaYates, celda, sumaFila, sumaColumna, total,
    filas, columnas, dof, pyDiv, init, pyOr, nombresPorDefecto, List.range_succ,
    PyFloat.nan_beq_fin, PyFloat.nan_eq_fin, PyFloat.fin_beq_fin, pyMinList, PyFloat.pmin,
    PyFloat.ltQ, abs_of_nonneg]

/-- Claim C7 (amended): for every 2×2 table with positive expected
frequencies, the method advisor does not return a structured record — it
prints the recommendation as prose and returns `None`; the printed
recommendation names the Fisher exact test exactly when the grand total is
below 20 or some (equivalently the minimum) expected cell count is below 5,
and otherwise declares both Fisher and chi-square valid. -/
theorem claim_C7 (s : Pruebas)
    (h2 : filas s.tabla = 2 ∧ columnas s.tabla = 2)
    (hnn : Nonneg s.tabla) (htot : 0 < total s.tabla)
    (hexp : ∀ i < 2, ∀ j < 2, 0 < esperado s.tabla i j) :
    ∃ rec, comparar_metodos s = .ok ⟨none, some rec⟩ ∧
      (rec = .usarFisher ↔
        (total s.tabla < 20 ∨ ∃ i < 2, ∃ j < 2, esperado s.tabla i j < 5)) := by
  obtain ⟨h20, h21⟩ := h2
  have htotQ : ((total s.tabla : ℤ) : ℚ) ≠ 0 := by exact_mod_cast htot.ne'
  have hrfil : ∀ i < filas s.tabla, sumaFila s.tabla i ≠ 0 := by
    rw [h20]
    intro i hi hz
    have h := hexp i hi 0 (by norm_num)
    rw [esperado, hz] at h
    simp at h
  have hccol : ∀ j < columnas s.tabla, sumaColumna s.tabla j ≠ 0 := by
    rw [h21]
    intro j hj hz
    have h := hexp 0 (by norm_num) j hj
    rw [esperado, hz] at h
    simp at h
  have hdof1 : dof s.tabla = 1 := by rw [dof, h20, h21]; norm_num
  have hok := chi2_contingency_ok hnn (by omega) (by omega) htot hrfil hccol
    (by rw [hdof1]; norm_num)
  have hM : pyMinList (esperadaMatriz s.tabla).flatten =
      .fin (min (min (min (esperado s.tabla 0 0) (esperado s.tabla 0 1))
        (esperado s.tabla 1 0)) (esperado s.tabla 1 1)) := by
    rw [esperadaMatriz, h20, h21, show List.range 2 = [0, 1] from rfl]
    simp only [List.map_cons, List.map_nil, List.flatten_cons, List.flatten_nil,
      List.append_nil, List.cons_append, List.nil_append]
    simp only [pyDiv, if_pos htotQ, pyMinList, List.foldl_cons, List.foldl_nil,
      PyFloat.pmin, esperado]
  rw [comparar_metodos, if_neg (not_not_intro ⟨h20, h21⟩),
    if_neg (by simp [tieneNegativo_eq_false hnn]), hok]
  refine ⟨_, rfl, ?_⟩
  rw [hM]
  simp only [PyFloat.ltQ]
  have hmin : (min (min (min (esperado s.tabla 0 0) (esperado s.tabla 0 1))
      (esperado s.tabla 1 0)) (esperado s.tabla 1 1) < 5) ↔
      (∃ i < 2, ∃ j < 2, esperado s.tabla i j < 5) := by
    rw [min_lt_iff, min_lt_iff, min_lt_iff]
    constructor
    · rintro (((h | h) | h) | h)
      exacts [⟨0, by norm_num, 0, by norm_num, h⟩, ⟨0, by norm_num, 1, by norm_num, h⟩,
        ⟨1, by norm_num, 0, by norm_num, h⟩, ⟨1, by norm_num, 1, by norm_num, h⟩]
    · rintro ⟨i, hi, j, hj, h⟩
      interval_cases i <;> interval_cases j <;> tauto
  by_cases hcond : total s.tabla < 20 ∨ min (min (min (esperado s.tabla 0 0)
      (esperado s.tabla 0 1)) (esperado s.tabla 1 0)) (esperado s.tabla 1 1) < 5
  · rw [if_pos (by simpa using hcond)]
    refine iff_of_true rfl ?_
    rcases hcond with h | h
    · exact Or.inl h
    · exact Or.inr (hmin.mp h)
  · rw [if_neg (by simpa using hcond)]
    refine iff_of_false (by simp) ?_
    rintro (h | h)
    · exact hcond (Or.inl h)
    · exact hcond (Or.inr (hmin.mpr h))

/-- Claim C7 witness: the amended theorem applied to `[[10,20],[5,30]]`
(total 65, all expected frequencies positive). -/
theorem claim_C7_witness :
    ∃ rec, comparar_metodos (init [[10, 20], [5, 30]] none none (1/20)) = .ok ⟨none, some rec⟩ ∧
      (rec = .usarFisher ↔
        (total [[(10:ℤ), 20], [5, 30]] < 20 ∨
          ∃ i < 2, ∃ j < 2, esperado [[(10:ℤ), 20], [5, 30]] i j < 5)) := by
  refine claim_C7 (init [[10, 20], [5, 30]] none none (1/20)) (by decide) (by decide)
    (by decide) ?_
  intro i hi j hj
  interval_cases i <;> interval_cases j <;>
    norm_num [esperado, sumaFila, sumaColumna, total, init]

/-- The five public test/interval operations of the class, with their
arguments. -/
inductive Op where
  | fisher (alternativa : Alternativa)
  | chiCuadrado
  | agrestiCoull (grupo categoria_exito : ℤ)
  | agrestiCaffo
  | comparar

/-- Return value of one operation (the record the method hands back, or the
exception it raises). -/
inductive Valor where
  | fisherV : Except String FisherResultado → Valor
  | chiV : Except String ChiResultado → Valor
  | coullV : Except String ACoullResultado → Valor
  | caffoV : Except String (Option ACaffoResultado) → Valor
  | compararV : Except String ComparacionTraza → Valor

/-- One method invocation on the object state.  This is the line-by-line
translation of the class: every method reads `self.tabla`, `self.alpha` and
the label lists but contains no assignment to any attribute of `self` (the
only attribute writes in the file are the four in `__init__`), so each call
leaves the state exactly as it found it and returns a value computed from the
state and the call arguments alone. -/
noncomputable def ejecutar (z : ℝ) (op : Op) (s : Pruebas) : Pruebas × Valor :=
  match op with
  | .fisher alt => (s, .fisherV (prueba_fisher_exacta s alt))
  | .chiCuadrado => (s, .chiV (prueba_chi_cuadrado s))
  | .agrestiCoull g k => (s, .coullV (intervalo_agresti_coull s g k z))
  | .agrestiCaffo => (s, .caffoV (intervalo_agresti_caffo_diferencia s z))
  | .comparar => (s, .compararV (comparar_metodos s))

/-- State of the object after a sequence of method invocations. -/
noncomputable def ejecutarLista (z : ℝ) (ops : List Op) (s : Pruebas) : Pruebas :=
  ops.foldl (fun st op => (ejecutar z op st).1) s

/-- Claim C8: no operation mutates the object — after any sequence of
invocations the table, labels and significance level are unchanged — and the
record an operation returns depends only on the state and the operation's own
arguments, independently of which operations ran before it. -/
theorem claim_C8 (z : ℝ) (ops : List Op) (s : Pruebas) (op : Op) :
    ejecutarLista z ops s = s ∧
    (ejecutar z op (ejecutarLista z ops s)).2 = (ejecutar z op s).2 := by
  have hstate : ∀ (l : List Op) (st : Pruebas), ejecutarLista z l st = st := by
    intro l
    induction l with
    | nil => intro st; rfl
    | cons o rest ih =>
        intro st
        have h1 : (ejecutar z o st).1 = st := by cases o <;> rfl
        calc ejecutarLista z (o :: rest) st
            = ejecutarLista z rest ((ejecutar z o st).1) := rfl
          _ = ejecutarLista z rest st := by rw [h1]
          _ = st := ih st
  exact ⟨hstate ops s, by rw [hstate ops s]⟩

end HypTest
